import Mathlib

/-!
Verification of the retrieval-augmented video-understanding core
(`frontend/app/api/RAG/route.ts`): a shallow embedding of the route's pure
orchestration logic — index-name sanitization, namespace derivation, the
embedding adapter, the provisioning cache discipline, and the
ingest / query / analyze / overview branch logic — together with theorems
about the repository's documented behaviour.

External services (Pinecone, Gemini) are modelled as oracles: an embedding
service is a function from text to a vector (an empty vector standing for
"no embedding returned"), and store / generation outcomes are passed in as
`Except` values, mirroring the promise resolution the route awaits.
-/

namespace VideoRAG

/-! ## Constants (route.ts lines 5-9, with environment overrides absent) -/
def EMBEDDING_DIMENSION : Nat := 3072

def DEFAULT_INDEX_NAME : String := "video-frames"

def DEFAULT_NAMESPACE : String := "frames"

/-! ## JavaScript-style identifiers

`videoId` and `indexName` arrive as `string | number | undefined`.  `JsId`
models the present `string | number` cases; `Option JsId` adds absence.
JavaScript truthiness on these values: `0` and `""` are falsy. -/
inductive JsId where
  | str (s : String)
  | num (n : Int)
deriving DecidableEq

def JsId.falsy : JsId → Bool
  | .str s => s = ""
  | .num n => n = 0

def JsId.render : JsId → String
  | .str s => s
  | .num n => toString n

/-! ## Index-name sanitization (route.ts lines 54-68, `sanitizeIndexName`)

The source lowercases the candidate, replaces every maximal run of
characters outside `[a-z0-9-]` with a single dash (a global regex
replacement), collapses consecutive dashes (a second global replacement),
strips leading and trailing dashes, falls back to the default index name
when the result is empty, and truncates to 45 characters with
`slice(0, 45)`.

The two global regex replacements are embedded as single-pass state
machines over the character list: the boolean argument records whether the
previous character belonged to the run being replaced, exactly the state a
global regex scan carries. -/
def isAllowedChar (c : Char) : Bool :=
  (('a' ≤ c) && (c ≤ 'z')) || (('0' ≤ c) && (c ≤ '9')) || (c = '-')

def replaceBadAux : Bool → List Char → List Char
  | _, [] => []
  | inRun, c :: rest =>
    if isAllowedChar c then c :: replaceBadAux false rest
    else if inRun then replaceBadAux true rest
    else '-' :: replaceBadAux true rest

def replaceBadRuns (l : List Char) : List Char :=
  replaceBadAux false l

def collapseAux : Bool → List Char → List Char
  | _, [] => []
  | prevDash, c :: rest =>
    if c = '-' then
      (if prevDash then collapseAux true rest else '-' :: collapseAux true rest)
    else c :: collapseAux false rest

def collapseDashes (l : List Char) : List Char :=
  collapseAux false l

def isDash (c : Char) : Bool := c = '-'

def trimDashes (l : List Char) : List Char :=
  (((l.dropWhile isDash).reverse.dropWhile isDash)).reverse

def sanitizeIndexName (raw : Option JsId) : String :=
  let fallback := DEFAULT_INDEX_NAME
  let candidate : String :=
    match raw with
    | some v => v.render
    | none => fallback
  let lowered := candidate.toList.map Char.toLower
  let replaced := replaceBadRuns lowered
  let collapsed := collapseDashes replaced
  let trimmed := trimDashes collapsed
  let safe := if trimmed = [] then fallback.toList else trimmed
  String.mk (safe.take 45)

/-! ## Namespace derivation (route.ts lines 26-31, `getNamespace`)

`if (!videoId) return DEFAULT_NAMESPACE` — the guard is JavaScript
truthiness, so an absent, zero or empty-string `videoId` all take the
default branch. -/
def getNamespace (videoId : Option JsId) : String :=
  match videoId with
  | none => DEFAULT_NAMESPACE
  | some v =>
    if v.falsy then DEFAULT_NAMESPACE
    else "video-" ++ sanitizeIndexName (some v)

/-- Two adjacent characters are never both dashes. -/
def NoDoubleDash (a b : Char) : Prop := ¬(a = '-' ∧ b = '-')

def noAdjDashes : List Char → Bool
  | [] => true
  | [_] => true
  | a :: b :: rest => (!(a = '-' && b = '-')) && noAdjDashes (b :: rest)

/-! ## Embedding adapter (route.ts lines 74-80 and 100-126)

The external embedding service is an oracle `EmbedService`: the vector it
returns for one text, with the empty list standing for "no embedding
vector returned" (the source's `!values?.length` guard treats an absent
and an empty vector alike).  `embedTexts` mirrors the source: it throws on
an empty input list, embeds each text (the source runs these concurrently
with `Promise.all`, which resolves to the per-text results in input
order, or rejects if any single embedding rejects), throws if any text
produced no vector, and records the non-fatal dimension-mismatch warning
`checkEmbeddingDimensions` emits via `console.warn`. -/
abbrev EmbedService := String → List Int

def checkEmbeddingDimensions (values : List Int) : List String :=
  if values.length ≠ EMBEDDING_DIMENSION then
    ["Gemini embedding dimension mismatch: expected " ++ toString EMBEDDING_DIMENSION
      ++ ", received " ++ toString values.length ++ "."]
  else []

def embedOne (svc : EmbedService) (text : String) :
    Except String (List Int × List String) :=
  let values := svc text
  if values = [] then Except.error "Gemini did not return an embedding vector."
  else Except.ok (values, checkEmbeddingDimensions values)

def embedEach (svc : EmbedService) :
    List String → Except String (List (List Int × List String))
  | [] => Except.ok []
  | t :: ts => do
    let r ← embedOne svc t
    let rs ← embedEach svc ts
    Except.ok (r :: rs)

def embedTexts (svc : EmbedService) (texts : List String) :
    Except String (List (List Int) × List String) :=
  if texts = [] then Except.error "No text provided for embedding."
  else
    match embedEach svc texts with
    | Except.error e => Except.error e
    | Except.ok results =>
        Except.ok (results.map Prod.fst, (results.map Prod.snd).flatten)

/-! ## Provisioning coordinator cache (route.ts lines 24 and 128-181)

`indexInitPromises` is a process-wide `Map` from index name to the
provisioning promise for that name.  `ensureIndexReady` looks the name up
and awaits a hit without starting anything new; on a miss it creates the
attempt, registers a catch-handler that deletes the map entry on failure,
stores the attempt in the map and awaits it.  The lookup, the creation
and the `set` all sit in one synchronous JavaScript segment (no `await`
between them), so the step is atomic with respect to other callers; the
model makes that segment a single state transition.  Attempts are
identified by tokens (`Nat`); `startedNew` records whether a fresh
create/poll sequence was launched. -/
abbrev InitMap := List (String × Nat)

def lookupInit (m : InitMap) (name : String) : Option Nat :=
  (m.find? fun p => p.1 = name).map Prod.snd

structure EnsureStep where
  awaited : Nat
  newMap : InitMap
  startedNew : Bool
deriving DecidableEq

def ensureIndexReadyStep (m : InitMap) (name : String) (fresh : Nat) : EnsureStep :=
  match lookupInit m name with
  | some a => ⟨a, m, false⟩
  | none => ⟨fresh, (name, fresh) :: m, true⟩

def evictOnFailure : InitMap → String → InitMap
  | [], _ => []
  | p :: m, name =>
    if p.1 = name then evictOnFailure m name else p :: evictOnFailure m name

/-! ## Store matches and the analyze pipeline (route.ts lines 547-627)

A store match is Pinecone's scored record: `{id, score?, metadata?}`.
Metadata fields are all optional — summary and manifest records carry no
`timestamp`.  Timestamps are rationals, standing for the JavaScript
numbers the store returns.  `tsOf` is the source's
`(m.metadata as any)?.timestamp ?? 0`. -/
structure MatchMeta where
  timestamp : Option Rat
  frame_id : Option JsId
  description : Option String
  path : Option String
deriving DecidableEq

structure VMatch where
  id : String
  score : Option Rat
  metadata : Option MatchMeta
deriving DecidableEq

def tsOf (m : VMatch) : Rat :=
  match m.metadata with
  | some meta => meta.timestamp.getD 0
  | none => 0

def tsLe (a b : VMatch) : Prop := tsOf a ≤ tsOf b

instance : DecidableRel tsLe := fun a b =>
  inferInstanceAs (Decidable (tsOf a ≤ tsOf b))

instance : IsTotal VMatch tsLe := ⟨fun a b => le_total (tsOf a) (tsOf b)⟩

instance : IsTrans VMatch tsLe := ⟨fun _ _ _ hab hbc => le_trans hab hbc⟩

/-- The source's `[...matches].sort((a, b) => tsA - tsB)`: a stable ascending
sort on the timestamp key (missing timestamps read as 0). -/
def sortMatchesByTimestamp (ms : List VMatch) : List VMatch :=
  List.insertionSort tsLe ms

structure Citation where
  id : String
  score : Option Rat
  metadata : Option MatchMeta
deriving DecidableEq

def toCitation (m : VMatch) : Citation := ⟨m.id, m.score, m.metadata⟩

def citationTs (c : Citation) : Rat :=
  match c.metadata with
  | some meta => meta.timestamp.getD 0
  | none => 0

/-! ### Generation response and answer extraction (route.ts lines 606-626)

`resp?.response?.text?.()` is modelled by the `text` field (`none` when
the method is absent or returns a nullish value); the fallback chain
`candidates?.[0]?.content?.parts?.map((p) => p.text ?? "").join("\n") ?? ""`
is translated field for field. -/
structure GenPart where
  text : Option String
deriving DecidableEq

structure GenContent where
  parts : Option (List GenPart)
deriving DecidableEq

structure GenCandidate where
  content : Option GenContent
deriving DecidableEq

structure GenResponse where
  text : Option String
  candidates : Option (List GenCandidate)
deriving DecidableEq

def extractAnswer (resp : GenResponse) : String :=
  match resp.text with
  | some t => t
  | none =>
    match ((resp.candidates.bind List.head?).bind GenCandidate.content).bind
        GenContent.parts with
    | some parts => String.intercalate "\n" (parts.map fun p => p.text.getD "")
    | none => ""

structure AnalyzeOk where
  answer : String
  citations : List Citation
deriving DecidableEq

/-- The tail of the analyze branch: the retrieved matches are re-sorted
chronologically, the generation call either rejects (propagating to the
boundary catch) or resolves to a response whose answer is extracted with
`extractAnswer`, and the citations map the chronologically sorted matches
to `{id, score, metadata}` (route.ts lines 570-626). -/
def analyzeRespond (ms : List VMatch) (genOutcome : Except String GenResponse) :
    Except String AnalyzeOk :=
  match genOutcome with
  | Except.error e => Except.error e
  | Except.ok resp =>
      Except.ok ⟨extractAnswer resp, (sortMatchesByTimestamp ms).map toCitation⟩

/-! ## Final ingestion (route.ts lines 372-464) -/
structure Frame where
  frameId : JsId
  timestamp : Rat
  description : String
  path : String
deriving DecidableEq

inductive VecMeta where
  | frame (video_id : String) (frame_id : JsId) (timestamp : Rat)
      (description : String) (path : String) (video_filename : Option String)
  | summaryMeta (video_id : String) (text : String)
  | manifest (video_id : String) (count : Nat) (first_timestamp : Rat)
      (last_timestamp : Rat) (video_filename : Option String)
deriving DecidableEq

structure UpsertVector where
  id : String
  values : List Int
  metadata : VecMeta
deriving DecidableEq

/-- The source's `videoId?.toString() ?? "1"`. -/
def videoIdString : Option JsId → String
  | some v => v.render
  | none => "1"

/-- The probe text embedded for the manifest vector:
`manifest video ` followed by `videoId ?? "1"`. -/
def manifestText (videoId : Option JsId) : String :=
  "manifest video " ++ videoIdString videoId

/-- JavaScript `String.prototype.trim` over the character list. -/
def jsTrim (s : String) : String :=
  String.mk
    (((s.toList.dropWhile Char.isWhitespace).reverse.dropWhile
      Char.isWhitespace).reverse)

/-- The source's guard `summary && summary.trim().length > 0`. -/
def summaryProvided : Option String → Bool
  | none => false
  | some s => (!(s == "")) && (decide (0 < (jsTrim s).length))

structure IngestFinalOk where
  upserted : Nat
  nsName : String
  includedSummary : Bool
deriving DecidableEq

/-- One frame vector per frame, paired positionally with its embedding
(`frames.map((frame, index) => ... embeddings[index] ...)`). -/
def frameVectors (videoId : Option JsId) (videoFilename : Option String)
    (frames : List Frame) (embeddings : List (List Int)) : List UpsertVector :=
  frames.zipWith
    (fun f e =>
      ({ id := getNamespace videoId ++ "::" ++ f.frameId.render
         values := e
         metadata := VecMeta.frame (videoIdString videoId) f.frameId
           f.timestamp f.description f.path videoFilename } : UpsertVector))
    embeddings

/-- The optional summary vector: included only when
`summary && summary.trim().length > 0`; its embedding failure propagates. -/
def summaryVectors (svc : EmbedService) (videoId : Option JsId)
    (summary : Option String) : Except String (List UpsertVector) :=
  match summary with
  | some s =>
    if summaryProvided (some s) then
      match embedTexts svc [s] with
      | Except.error e => Except.error e
      | Except.ok (svecs, _w) =>
          Except.ok [({
            id := getNamespace videoId ++ "::summary"
            values := svecs.headD []
            metadata := VecMeta.summaryMeta (videoIdString videoId) s } :
            UpsertVector)]
    else Except.ok []
  | none => Except.ok []

/-- The always-attempted manifest vector, wrapped in `try ... catch` in the
source: an embedding failure leaves the extra vectors unchanged. -/
def appendManifest (svc : EmbedService) (videoId : Option JsId)
    (videoFilename : Option String) (frames : List Frame)
    (extraVectors : List UpsertVector) : List UpsertVector :=
  match embedTexts svc [manifestText videoId] with
  | Except.error _ => extraVectors
  | Except.ok (mvecs, _w) =>
      extraVectors ++ [({
        id := getNamespace videoId ++ "::manifest"
        values := mvecs.headD []
        metadata := VecMeta.manifest (videoIdString videoId) frames.length
          ((frames.head?.map Frame.timestamp).getD 0)
          ((frames.getLast?.map Frame.timestamp).getD 0)
          videoFilename } : UpsertVector)]

/-- The `ingest_final` branch after the `ensureIndexReady` step: reject an
empty frame list with a 400, embed every frame description in one batched
call, build one frame vector per frame with deterministic ID
`namespace::frameId`, append a summary vector when the summary is
non-empty (its embedding failure propagates), always attempt a manifest
vector whose embedding failure is swallowed, and report
`upserted = vectors.length + extraVectors.length`. -/
def ingestFinal (svc : EmbedService) (videoId : Option JsId)
    (videoFilename : Option String) (summary : Option String)
    (frames : List Frame) : Except String IngestFinalOk :=
  if frames = [] then
    Except.error "No frames/records provided for final ingestion."
  else
    match embedTexts svc (frames.map fun f => f.description) with
    | Except.error e => Except.error e
    | Except.ok (embeddings, _warnings) =>
      let vectors := frameVectors videoId videoFilename frames embeddings
      match summaryVectors svc videoId summary with
      | Except.error e => Except.error e
      | Except.ok extraVectors =>
        let extraVectors2 :=
          appendManifest svc videoId videoFilename frames extraVectors
        Except.ok ⟨vectors.length + extraVectors2.length, getNamespace videoId,
          decide (0 < extraVectors2.length)⟩

/-! ## Overview pipeline (route.ts lines 629-665) -/
structure OverviewFrame where
  id : String
  score : Option Rat
  frame_id : Option JsId
  timestamp : Option Rat
  description : Option String
  path : Option String
deriving DecidableEq

def toOverviewFrame (m : VMatch) : OverviewFrame :=
  { id := m.id
    score := m.score
    frame_id := m.metadata.bind MatchMeta.frame_id
    timestamp := m.metadata.bind MatchMeta.timestamp
    description := m.metadata.bind MatchMeta.description
    path := m.metadata.bind MatchMeta.path }

def ofTs (f : OverviewFrame) : Rat := f.timestamp.getD 0

def ofLe (a b : OverviewFrame) : Prop := ofTs a ≤ ofTs b

instance : DecidableRel ofLe := fun a b =>
  inferInstanceAs (Decidable (ofTs a ≤ ofTs b))

instance : IsTotal OverviewFrame ofLe := ⟨fun a b => le_total (ofTs a) (ofTs b)⟩

instance : IsTrans OverviewFrame ofLe := ⟨fun _ _ _ hab hbc => le_trans hab hbc⟩

structure OverviewOk where
  summary : Option String
  frames : List OverviewFrame
deriving DecidableEq

/-- The overview branch after `ensureIndexReady`: the summary fetch is
wrapped in `try { ... } catch {}`, so a failed fetch leaves `summary`
undefined; the broad probe query's matches are projected, filtered to
records with a numeric `timestamp`, and sorted ascending; a query failure
propagates to the boundary catch. -/
def overviewRespond (fetchOutcome : Except Unit (Option String))
    (queryOutcome : Except String (List VMatch)) : Except String OverviewOk :=
  let summary : Option String :=
    match fetchOutcome with
    | Except.ok s => s
    | Except.error _ => none
  match queryOutcome with
  | Except.error e => Except.error e
  | Except.ok ms =>
      Except.ok ⟨summary,
        List.insertionSort ofLe
          ((ms.map toOverviewFrame).filter fun f => f.timestamp.isSome)⟩

/-! ## Network-call traces of the POST branches (route.ts lines 362-681)

For the validation-ordering property the three branches are modelled at
the level of their network-call traces: which external calls run, in
order, before the response is produced.  `ensureIndexReady` always issues
at least one network call (`listIndexes`), abstracted as one `provision`
call; in every branch it runs before the input validation whenever
`skipEnsure` is not set. -/
inductive NetCall where
  | provision | embed | storeUpsert | storeQuery | storeFetch | generate
deriving DecidableEq

inductive RouteStatus where
  | ok
  | badRequest (message : String)
  | serverError (message : String)
deriving DecidableEq

structure TraceResult where
  calls : List NetCall
  response : RouteStatus
deriving DecidableEq

/-- The `ingest` branch (route.ts lines 466-512): ensure (unless skipped),
then the empty-frames validation, then embed and upsert. -/
def ingestBranch (skipEnsure provisionOk embedOk : Bool)
    (frames : List Frame) : TraceResult :=
  if !skipEnsure && !provisionOk then
    ⟨[NetCall.provision], RouteStatus.serverError "ensureIndexReady failed"⟩
  else
    let pre := if skipEnsure then [] else [NetCall.provision]
    if frames = [] then
      ⟨pre, RouteStatus.badRequest "No frames provided for ingestion."⟩
    else if embedOk then
      ⟨pre ++ [NetCall.embed, NetCall.storeUpsert], RouteStatus.ok⟩
    else ⟨pre ++ [NetCall.embed], RouteStatus.serverError "embedding failed"⟩

/-- The `query` branch (route.ts lines 514-545): ensure (unless skipped),
then the empty-question validation, then embed and query. -/
def queryBranch (skipEnsure provisionOk embedOk : Bool)
    (question : String) : TraceResult :=
  if !skipEnsure && !provisionOk then
    ⟨[NetCall.provision], RouteStatus.serverError "ensureIndexReady failed"⟩
  else
    let pre := if skipEnsure then [] else [NetCall.provision]
    if question = "" then
      ⟨pre, RouteStatus.badRequest "Question is required for query."⟩
    else if embedOk then
      ⟨pre ++ [NetCall.embed, NetCall.storeQuery], RouteStatus.ok⟩
    else ⟨pre ++ [NetCall.embed], RouteStatus.serverError "embedding failed"⟩

/-- The `analyze` branch (route.ts lines 547-627): ensure (unless skipped),
then the empty-question validation, then embed, query and generate. -/
def analyzeBranch (skipEnsure provisionOk embedOk genOk : Bool)
    (question : String) : TraceResult :=
  if !skipEnsure && !provisionOk then
    ⟨[NetCall.provision], RouteStatus.serverError "ensureIndexReady failed"⟩
  else
    let pre := if skipEnsure then [] else [NetCall.provision]
    if question = "" then
      ⟨pre, RouteStatus.badRequest "Question is required for analyze."⟩
    else if !embedOk then
      ⟨pre ++ [NetCall.embed], RouteStatus.serverError "embedding failed"⟩
    else if genOk then
      ⟨pre ++ [NetCall.embed, NetCall.storeQuery, NetCall.generate], RouteStatus.ok⟩
    else
      ⟨pre ++ [NetCall.embed, NetCall.storeQuery, NetCall.generate],
        RouteStatus.serverError "generation failed"⟩

/-- A concrete embedding oracle for the C4 witness: it fails exactly on the
manifest probe text and returns a one-component vector otherwise. -/
def claim4Svc : EmbedService := fun t =>
  if t = manifestText (some (JsId.num 7)) then [] else [1]

def claim4Frames : List Frame :=
  [⟨JsId.num 0, 0, "d0", "p0"⟩, ⟨JsId.num 1, 1, "d1", "p1"⟩]

/-- A frame-style match carrying only a numeric timestamp in its metadata. -/
def mkFrameMatch (i : String) (sc ts : Rat) : VMatch :=
  ⟨i, some sc, some ⟨some ts, none, none, none⟩⟩

/-- A match whose metadata has no numeric timestamp, as a summary or
manifest record returns. -/
def mkPlainMatch (i : String) (sc : Rat) : VMatch :=
  ⟨i, some sc, some ⟨none, none, none, none⟩⟩

/-- The spec's worked example: matches arriving in similarity order with
timestamps 5.0, 1.0, 3.0. -/
def claim3Matches : List VMatch :=
  [mkFrameMatch "m5" 9 5, mkFrameMatch "m1" 8 1, mkFrameMatch "m3" 7 3]

def claim5Matches : List VMatch :=
  [mkFrameMatch "f5" 3 5, mkPlainMatch "video-1::summary" 2, mkFrameMatch "f1" 1 1]

/-! ## Lemmas and claim theorems -/

/-! ## Sanitization lemmas -/
theorem replaceBadAux_allowed (l : List Char) :
    ∀ b, ∀ c ∈ replaceBadAux b l, isAllowedChar c = true := by
  induction l with
  | nil => intro b c hc; simp [replaceBadAux] at hc
  | cons a rest ih =>
    intro b c hc
    by_cases ha : isAllowedChar a
    · simp only [replaceBadAux, if_pos ha, List.mem_cons] at hc
      rcases hc with rfl | hc
      · exact ha
      · exact ih false c hc
    · cases b with
      | true =>
        simp only [replaceBadAux, if_neg ha, if_pos rfl] at hc
        exact ih true c hc
      | false =>
        simp only [replaceBadAux, if_neg ha] at hc
        rw [if_neg Bool.false_ne_true] at hc
        rcases List.mem_cons.mp hc with rfl | hc'
        · decide
        · exact ih true c hc'

theorem collapseAux_dash_true (rest : List Char) :
    collapseAux true ('-' :: rest) = collapseAux true rest := by
  simp [collapseAux]

theorem collapseAux_dash_false (rest : List Char) :
    collapseAux false ('-' :: rest) = '-' :: collapseAux true rest := by
  simp [collapseAux]

theorem collapseAux_nondash (b : Bool) {a : Char} (ha : ¬(a = '-')) (rest : List Char) :
    collapseAux b (a :: rest) = a :: collapseAux false rest := by
  simp [collapseAux, ha]

theorem collapseAux_mem (l : List Char) :
    ∀ b, ∀ c ∈ collapseAux b l, c ∈ l := by
  induction l with
  | nil => intro b c hc; simp [collapseAux] at hc
  | cons a rest ih =>
    intro b c hc
    by_cases ha : a = '-'
    · subst ha
      cases b with
      | true =>
        rw [collapseAux_dash_true] at hc
        exact List.mem_cons_of_mem _ (ih true c hc)
      | false =>
        rw [collapseAux_dash_false] at hc
        rcases List.mem_cons.mp hc with rfl | hc'
        · exact List.mem_cons_self _ _
        · exact List.mem_cons_of_mem _ (ih true c hc')
    · rw [collapseAux_nondash b ha] at hc
      rcases List.mem_cons.mp hc with rfl | hc'
      · exact List.mem_cons_self _ _
      · exact List.mem_cons_of_mem _ (ih false c hc')

theorem collapseAux_true_head (l : List Char) :
    ∀ x, (collapseAux true l).head? = some x → x ≠ '-' := by
  induction l with
  | nil => intro x hx; simp [collapseAux] at hx
  | cons a rest ih =>
    intro x hx
    by_cases ha : a = '-'
    · subst ha
      rw [collapseAux_dash_true] at hx
      exact ih x hx
    · rw [collapseAux_nondash true ha] at hx
      simp only [List.head?_cons, Option.some.injEq] at hx
      subst hx; exact ha

theorem collapseAux_chain (l : List Char) :
    ∀ b, List.Chain' NoDoubleDash (collapseAux b l) := by
  induction l with
  | nil => intro b; simp [collapseAux]
  | cons a rest ih =>
    intro b
    by_cases ha : a = '-'
    · subst ha
      cases b with
      | true =>
        rw [collapseAux_dash_true]
        exact ih true
      | false =>
        rw [collapseAux_dash_false]
        rw [List.chain'_cons']
        refine ⟨?_, ih true⟩
        intro y hy
        have hne := collapseAux_true_head rest y hy
        intro h
        exact hne h.2
    · rw [collapseAux_nondash b ha]
      rw [List.chain'_cons']
      refine ⟨?_, ih false⟩
      intro y hy h
      exact ha h.1

theorem trimDashes_mem (l : List Char) : ∀ c ∈ trimDashes l, c ∈ l := by
  intro c hc
  unfold trimDashes at hc
  rw [List.mem_reverse] at hc
  have h1 := (List.dropWhile_sublist (l := (l.dropWhile isDash).reverse) isDash).mem hc
  rw [List.mem_reverse] at h1
  exact (List.dropWhile_sublist (l := l) isDash).mem h1

theorem noDoubleDash_symm {a b : Char} (h : NoDoubleDash a b) : NoDoubleDash b a :=
  fun hab => h ⟨hab.2, hab.1⟩

theorem trimDashes_chain (l : List Char)
    (h : List.Chain' NoDoubleDash l) : List.Chain' NoDoubleDash (trimDashes l) := by
  unfold trimDashes
  have h1 : List.Chain' NoDoubleDash (l.dropWhile isDash) :=
    h.suffix (List.dropWhile_suffix isDash)
  have h2 : List.Chain' (flip NoDoubleDash) (l.dropWhile isDash).reverse := by
    rw [List.chain'_reverse]
    exact h1.imp (fun a b hab => hab)
  have h3 : List.Chain' (flip NoDoubleDash)
      (((l.dropWhile isDash).reverse).dropWhile isDash) :=
    h2.suffix (List.dropWhile_suffix isDash)
  rw [List.chain'_reverse]
  exact h3

theorem chain_take {l : List Char} (n : Nat)
    (h : List.Chain' NoDoubleDash l) : List.Chain' NoDoubleDash (l.take n) :=
  h.prefix (List.take_prefix n l)

theorem sanitizeIndexName_length (raw : Option JsId) :
    (sanitizeIndexName raw).toList.length ≤ 45 := by
  unfold sanitizeIndexName
  simp only [String.toList, String.mk]
  exact le_trans (List.length_take_le _ _) (by omega)

theorem defaultIndexName_allowed :
    ∀ c ∈ DEFAULT_INDEX_NAME.toList, isAllowedChar c = true := by decide

theorem noAdjDashes_sound : ∀ l, noAdjDashes l = true → List.Chain' NoDoubleDash l
  | [], _ => List.chain'_nil
  | [a], _ => List.chain'_singleton a
  | a :: b :: rest, h => by
    simp only [noAdjDashes, Bool.and_eq_true] at h
    rw [List.chain'_cons]
    refine ⟨?_, noAdjDashes_sound (b :: rest) h.2⟩
    intro hab
    have hh := h.1
    rw [hab.1, hab.2] at hh
    simp at hh

theorem defaultIndexName_chain :
    List.Chain' NoDoubleDash DEFAULT_INDEX_NAME.toList :=
  noAdjDashes_sound _ (by decide)

theorem sanitizeIndexName_ne_empty (raw : Option JsId) :
    sanitizeIndexName raw ≠ "" := by
  unfold sanitizeIndexName
  intro h
  have hdata := congrArg String.toList h
  simp only [String.toList, String.mk] at hdata
  rw [List.take_eq_nil_iff] at hdata
  rcases hdata with hdata | hdata
  · exact absurd hdata (by decide)
  · revert hdata
    split
    · intro hdata; exact absurd hdata (by decide)
    · intro hdata; exact absurd hdata (by assumption)

theorem sanitizeIndexName_allowed (raw : Option JsId) :
    ∀ c ∈ (sanitizeIndexName raw).toList, isAllowedChar c = true := by
  intro c hc
  unfold sanitizeIndexName at hc
  simp only [String.toList, String.mk] at hc
  have hc' := List.mem_of_mem_take hc
  clear hc
  revert hc'
  split
  · intro hc'
    exact defaultIndexName_allowed c hc'
  · intro hc'
    have h1 := trimDashes_mem _ c hc'
    have h2 := collapseAux_mem _ false c h1
    exact replaceBadAux_allowed _ false c h2

theorem sanitizeIndexName_chain (raw : Option JsId) :
    List.Chain' NoDoubleDash (sanitizeIndexName raw).toList := by
  unfold sanitizeIndexName
  simp only [String.toList, String.mk]
  apply chain_take
  split
  · exact defaultIndexName_chain
  · exact trimDashes_chain _ (collapseAux_chain _ false)

theorem embedEach_ok (svc : EmbedService) :
    ∀ texts : List String, (∀ t ∈ texts, svc t ≠ []) →
      embedEach svc texts =
        Except.ok (texts.map fun t => (svc t, checkEmbeddingDimensions (svc t)))
  | [], _ => rfl
  | t :: ts, h => by
    have ht : ¬(svc t = []) := h t (List.mem_cons_self t ts)
    have hts := embedEach_ok svc ts (fun x hx => h x (List.mem_cons_of_mem _ hx))
    simp only [embedEach, embedOne, if_neg ht, hts, List.map_cons]
    rfl

theorem embedEach_err (svc : EmbedService) :
    ∀ texts : List String, (∃ t ∈ texts, svc t = []) →
      embedEach svc texts = Except.error "Gemini did not return an embedding vector."
  | t :: ts, h => by
    by_cases ht : svc t = []
    · simp only [embedEach, embedOne, if_pos ht]
      rfl
    · rcases h with ⟨x, hx, hxe⟩
      rcases List.mem_cons.mp hx with rfl | hx'
      · exact absurd hxe ht
      · have hrec := embedEach_err svc ts ⟨x, hx', hxe⟩
        simp only [embedEach, embedOne, if_neg ht, hrec]
        rfl

theorem embedTexts_ok (svc : EmbedService) (texts : List String)
    (hne : texts ≠ []) (h : ∀ t ∈ texts, svc t ≠ []) :
    embedTexts svc texts =
      Except.ok (texts.map svc,
        (texts.map fun t => checkEmbeddingDimensions (svc t)).flatten) := by
  unfold embedTexts
  rw [if_neg hne, embedEach_ok svc texts h]
  show Except.ok
      ((texts.map fun t => (svc t, checkEmbeddingDimensions (svc t))).map Prod.fst,
        ((texts.map fun t => (svc t, checkEmbeddingDimensions (svc t))).map
          Prod.snd).flatten) = _
  rw [List.map_map, List.map_map]
  rfl

theorem lookupInit_insert (m : InitMap) (name : String) (fresh : Nat) :
    lookupInit ((name, fresh) :: m) name = some fresh := by
  simp [lookupInit, List.find?]

theorem lookupInit_evict (m : InitMap) (name : String) :
    lookupInit (evictOnFailure m name) name = none := by
  induction m with
  | nil => rfl
  | cons p m ih =>
    unfold evictOnFailure
    by_cases hp : p.1 = name
    · rw [if_pos hp]; exact ih
    · rw [if_neg hp]
      unfold lookupInit at ih ⊢
      rw [List.find?_cons_of_neg _ (by simpa using hp)]
      exact ih

/-! ## Further helper lemmas -/
theorem embedTexts_err (svc : EmbedService) (texts : List String)
    (hne : texts ≠ []) (hex : ∃ t ∈ texts, svc t = []) :
    embedTexts svc texts =
      Except.error "Gemini did not return an embedding vector." := by
  unfold embedTexts
  rw [if_neg hne, embedEach_err svc texts hex]

theorem length_frameVectors (videoId : Option JsId) (videoFilename : Option String)
    (frames : List Frame) (embeddings : List (List Int)) :
    (frameVectors videoId videoFilename frames embeddings).length =
      min frames.length embeddings.length := by
  simp [frameVectors]

theorem summaryVectors_not_provided (svc : EmbedService) (videoId : Option JsId)
    (s : String) (h : summaryProvided (some s) = false) :
    summaryVectors svc videoId (some s) = Except.ok [] := by
  simp only [summaryVectors]
  rw [if_neg (by simp [h])]

theorem summaryVectors_provided (svc : EmbedService) (videoId : Option JsId)
    (s : String) (hp : summaryProvided (some s) = true) (hs : svc s ≠ []) :
    ∃ v, summaryVectors svc videoId (some s) = Except.ok [v] := by
  simp only [summaryVectors]
  rw [if_pos hp, embedTexts_ok svc [s] (by simp)
    (by intro t ht; rw [List.mem_singleton] at ht; subst ht; exact hs)]
  exact ⟨_, rfl⟩

theorem appendManifest_fail (svc : EmbedService) (videoId : Option JsId)
    (videoFilename : Option String) (frames : List Frame)
    (extra : List UpsertVector) (h : svc (manifestText videoId) = []) :
    appendManifest svc videoId videoFilename frames extra = extra := by
  unfold appendManifest
  rw [embedTexts_err svc [manifestText videoId] (by simp)
    ⟨manifestText videoId, List.mem_singleton_self _, h⟩]

theorem appendManifest_ok (svc : EmbedService) (videoId : Option JsId)
    (videoFilename : Option String) (frames : List Frame)
    (extra : List UpsertVector) (h : svc (manifestText videoId) ≠ []) :
    ∃ v, appendManifest svc videoId videoFilename frames extra = extra ++ [v] := by
  unfold appendManifest
  rw [embedTexts_ok svc [manifestText videoId] (by simp)
    (by intro t ht; rw [List.mem_singleton] at ht; subst ht; exact h)]
  exact ⟨_, rfl⟩

/-! ## Claim theorems -/
/-- C2: for every collection name, the provisioning coordinator keeps at most
one cached attempt per name: a call that finds an in-flight or completed
attempt awaits and returns that same attempt without starting a new
create/poll sequence (and leaves the map unchanged); a call that finds none
registers exactly one attempt, which every subsequent call then observes
without starting another; and after a failure the cached attempt is evicted,
so the next call starts a fresh attempt. -/
theorem claim2_provisioning_cache (m : InitMap) (name : String)
    (fresh fresh2 a : Nat) :
    (lookupInit m name = some a →
      ensureIndexReadyStep m name fresh = ⟨a, m, false⟩) ∧
    (lookupInit m name = none →
      (ensureIndexReadyStep m name fresh).startedNew = true ∧
      lookupInit (ensureIndexReadyStep m name fresh).newMap name = some fresh ∧
      ensureIndexReadyStep (ensureIndexReadyStep m name fresh).newMap name fresh2 =
        ⟨fresh, (ensureIndexReadyStep m name fresh).newMap, false⟩) ∧
    lookupInit (evictOnFailure m name) name = none ∧
    (ensureIndexReadyStep (evictOnFailure m name) name fresh).startedNew = true := by
  refine ⟨?_, ?_, lookupInit_evict m name, ?_⟩
  · intro h
    unfold ensureIndexReadyStep
    rw [h]
  · intro h
    have hstep : ensureIndexReadyStep m name fresh = ⟨fresh, (name, fresh) :: m, true⟩ := by
      unfold ensureIndexReadyStep
      rw [h]
    rw [hstep]
    refine ⟨rfl, lookupInit_insert m name fresh, ?_⟩
    unfold ensureIndexReadyStep
    rw [lookupInit_insert]
  · have hstep : ensureIndexReadyStep (evictOnFailure m name) name fresh =
        ⟨fresh, (name, fresh) :: evictOnFailure m name, true⟩ := by
      unfold ensureIndexReadyStep
      rw [lookupInit_evict]
    rw [hstep]

/-- C4: for every `ingest_final` call with a non-empty frames list (whose
descriptions, and the summary when one is included, all embed successfully),
the call succeeds and its `upserted` count is the number of frames, plus 1
when a non-empty summary was provided, plus 1 when the manifest vector was
built; a failure to build the manifest vector is swallowed and never fails
the ingestion (the call returns `ok` in both manifest branches). -/
theorem claim4_ingest_final_upserted (svc : EmbedService) (videoId : Option JsId)
    (videoFilename : Option String) (summary : Option String) (frames : List Frame)
    (hne : frames ≠ [])
    (hdesc : ∀ f ∈ frames, svc f.description ≠ [])
    (hsum : ∀ s, summary = some s → summaryProvided (some s) = true → svc s ≠ []) :
    ∃ r, ingestFinal svc videoId videoFilename summary frames = Except.ok r ∧
      r.upserted = frames.length
        + (if summaryProvided summary = true then 1 else 0)
        + (if svc (manifestText videoId) = [] then 0 else 1) := by
  have hmapne : frames.map (fun f => f.description) ≠ [] := by
    intro h
    exact hne (by simpa using h)
  have hall : ∀ t ∈ frames.map (fun f => f.description), svc t ≠ [] := by
    intro t ht
    rcases List.mem_map.mp ht with ⟨f, hf, rfl⟩
    exact hdesc f hf
  have hemb := embedTexts_ok svc _ hmapne hall
  have hsumv : ∃ extra : List UpsertVector,
      summaryVectors svc videoId summary = Except.ok extra ∧
      extra.length = (if summaryProvided summary = true then 1 else 0) := by
    cases summary with
    | none => exact ⟨[], rfl, by simp [summaryProvided]⟩
    | some s =>
      by_cases hp : summaryProvided (some s) = true
      · rcases summaryVectors_provided svc videoId s hp (hsum s rfl hp) with ⟨v, hv⟩
        exact ⟨[v], hv, by simp [hp]⟩
      · have hp' : summaryProvided (some s) = false := by
          simpa using hp
        refine ⟨[], summaryVectors_not_provided svc videoId s hp', ?_⟩
        simp [hp']
  rcases hsumv with ⟨extra, hextra, hlenextra⟩
  have hman : ∃ extra2 : List UpsertVector,
      appendManifest svc videoId videoFilename frames extra = extra2 ∧
      extra2.length = extra.length
        + (if svc (manifestText videoId) = [] then 0 else 1) := by
    by_cases hm : svc (manifestText videoId) = []
    · exact ⟨extra, appendManifest_fail svc videoId videoFilename frames extra hm,
        by simp [hm]⟩
    · rcases appendManifest_ok svc videoId videoFilename frames extra hm with ⟨v, hv⟩
      exact ⟨extra ++ [v], hv, by simp [hm]⟩
  rcases hman with ⟨extra2, hextra2, hlen2⟩
  refine ⟨({
      upserted := (frameVectors videoId videoFilename frames
        ((frames.map fun f => f.description).map svc)).length + extra2.length
      nsName := getNamespace videoId
      includedSummary := decide (0 < extra2.length) } : IngestFinalOk), ?_, ?_⟩
  · unfold ingestFinal
    rw [if_neg hne, hemb, hextra]
    show Except.ok (({
        upserted := (frameVectors videoId videoFilename frames
          ((frames.map fun f => f.description).map svc)).length +
          (appendManifest svc videoId videoFilename frames extra).length
        nsName := getNamespace videoId
        includedSummary :=
          decide (0 < (appendManifest svc videoId videoFilename frames
            extra).length) } : IngestFinalOk)) = _
    rw [hextra2]
  · have h1 : (frameVectors videoId videoFilename frames
        ((frames.map fun f => f.description).map svc)).length = frames.length := by
      rw [length_frameVectors]
      simp
    simp only [h1, hlen2, hlenextra]
    rw [Nat.add_assoc]

/-- Witness for C4 at a concrete input: two frames, a non-empty summary and a
failing manifest embedding give `upserted = 2 + 1 + 0` and the ingestion
still succeeds. -/
theorem claim4_ingest_final_upserted_witness :
    ∃ r, ingestFinal claim4Svc (some (JsId.num 7)) none (some "sum") claim4Frames =
        Except.ok r ∧
      r.upserted = claim4Frames.length
        + (if summaryProvided (some "sum") = true then 1 else 0)
        + (if claim4Svc (manifestText (some (JsId.num 7))) = [] then 0 else 1) :=
  claim4_ingest_final_upserted claim4Svc (some (JsId.num 7)) none (some "sum")
    claim4Frames (by decide)
    (by intro f hf; fin_cases hf <;> decide)
    (by intro s hs hp; injection hs with hs; subst hs; decide)

/-- C6: `embedTexts` fails when the input list is empty; for a non-empty
input list on which the service returns a vector for every text it returns
exactly one vector per input text, in input order, whatever the vectors'
dimensions are (a dimension mismatch only contributes a warning, never a
failure); and it fails when the service returns no vector for some text.
The final conjunct evaluates a concrete mismatching vector: the call still
succeeds and the recorded warning is the dimension-mismatch message. -/
theorem claim6_embed_texts :
    (∀ svc : EmbedService,
      embedTexts svc [] = Except.error "No text provided for embedding.") ∧
    (∀ (svc : EmbedService) (texts : List String), texts ≠ [] →
      (∀ t ∈ texts, svc t ≠ []) →
      embedTexts svc texts = Except.ok (texts.map svc,
        (texts.map fun t => checkEmbeddingDimensions (svc t)).flatten)) ∧
    (∀ (svc : EmbedService) (texts : List String), (∃ t ∈ texts, svc t = []) →
      embedTexts svc texts =
        Except.error "Gemini did not return an embedding vector.") ∧
    embedTexts (fun _ => [1]) ["a"] = Except.ok ([[1]],
      ["Gemini embedding dimension mismatch: expected 3072, received 1."]) := by
  refine ⟨fun svc => rfl, fun svc texts hne h => embedTexts_ok svc texts hne h,
    ?_, by rfl⟩
  intro svc texts hex
  have hne : texts ≠ [] := by
    rcases hex with ⟨t, ht, _⟩
    intro hnil
    subst hnil
    simp at ht
  exact embedTexts_err svc texts hne hex

/-- C3: for every analyze call, the returned citations are the retrieved
matches re-sorted ascending by `metadata.timestamp` (a missing timestamp
treated as 0), each citation carrying `{id, score, metadata}` unchanged
from the store's match; matches with timestamps `[5.0, 1.0, 3.0]` yield
citation order `[1.0, 3.0, 5.0]` regardless of input similarity order. -/
theorem claim3_citations_chronological :
    (∀ (ms : List VMatch) (resp : GenResponse) (r : AnalyzeOk),
      analyzeRespond ms (Except.ok resp) = Except.ok r →
        r.citations = (sortMatchesByTimestamp ms).map toCitation) ∧
    (∀ ms : List VMatch,
      List.Sorted (fun a b => citationTs a ≤ citationTs b)
        ((sortMatchesByTimestamp ms).map toCitation)) ∧
    (∀ ms : List VMatch,
      List.Perm ((sortMatchesByTimestamp ms).map toCitation) (ms.map toCitation)) ∧
    ((sortMatchesByTimestamp claim3Matches).map toCitation).map citationTs =
      [1, 3, 5] ∧
    ((sortMatchesByTimestamp claim3Matches).map toCitation).map Citation.id =
      ["m1", "m3", "m5"] := by
  refine ⟨?_, ?_, ?_, by decide, by decide⟩
  · intro ms resp r h
    injection h with h
    rw [← h]
  · intro ms
    exact List.Pairwise.map toCitation (fun a b hab => hab)
      (List.sorted_insertionSort tsLe ms)
  · intro ms
    exact (List.perm_insertionSort tsLe ms).map toCitation

/-- C5: for every overview call whose broad probe query succeeds, the
returned frames are exactly the query results carrying a numeric
timestamp (summary and manifest records, which carry none, are excluded),
sorted ascending by timestamp; and a failure while fetching the summary
vector leaves `summary` undefined without failing the call.  The closed
conjunct runs a concrete call: a failed fetch plus three matches, one of
them a summary record, produce `summary = none` and the two frame records
in chronological order. -/
theorem claim5_overview_frames :
    (∀ (fetchOutcome : Except Unit (Option String)) (ms : List VMatch),
      ∃ r, overviewRespond fetchOutcome (Except.ok ms) = Except.ok r ∧
        List.Perm r.frames
          ((ms.map toOverviewFrame).filter fun f => f.timestamp.isSome) ∧
        List.Sorted ofLe r.frames ∧
        (∀ f ∈ r.frames, f.timestamp.isSome = true) ∧
        (fetchOutcome = Except.error () → r.summary = none)) ∧
    overviewRespond (Except.error ()) (Except.ok claim5Matches) =
      Except.ok ⟨none, [toOverviewFrame (mkFrameMatch "f1" 1 1),
        toOverviewFrame (mkFrameMatch "f5" 3 5)]⟩ := by
  refine ⟨?_, by rfl⟩
  intro fetchOutcome ms
  refine ⟨⟨match fetchOutcome with
      | Except.ok s => s
      | Except.error _ => none,
    List.insertionSort ofLe
      ((ms.map toOverviewFrame).filter fun f => f.timestamp.isSome)⟩,
    rfl, ?_, ?_, ?_, ?_⟩
  · exact List.perm_insertionSort ofLe _
  · exact List.sorted_insertionSort ofLe _
  · intro f hf
    have hf' := (List.perm_insertionSort ofLe _).mem_iff.mp hf
    exact (List.mem_filter.mp hf').2
  · intro h
    subst h
    rfl

/-- C7 counterexample: a generation response with no usable text (no
method result and no candidates) does not fail the analyze call — the
branch returns a success whose answer is the empty string, so "absence of
usable text is an error" is false on the code. -/
theorem claim7_counterexample :
    analyzeRespond [] (Except.ok ⟨none, none⟩) = Except.ok ⟨"", []⟩ := by rfl

/-- C7 (amended): the answer is the response's text-method result when that
yields a string, else the newline-join of the first candidate's part
texts, else the empty string — a response with no usable text produces an
empty-string success, not an error; only a rejected generation call
propagates as an error. -/
theorem claim7_answer_extraction :
    (∀ (ms : List VMatch) (resp : GenResponse),
      resp.text = none →
      ((resp.candidates.bind List.head?).bind GenCandidate.content).bind
          GenContent.parts = none →
      analyzeRespond ms (Except.ok resp) =
        Except.ok ⟨"", (sortMatchesByTimestamp ms).map toCitation⟩) ∧
    (∀ (ms : List VMatch) (resp : GenResponse) (t : String),
      resp.text = some t →
      analyzeRespond ms (Except.ok resp) =
        Except.ok ⟨t, (sortMatchesByTimestamp ms).map toCitation⟩) ∧
    (∀ (ms : List VMatch) (resp : GenResponse) (parts : List GenPart),
      resp.text = none →
      ((resp.candidates.bind List.head?).bind GenCandidate.content).bind
          GenContent.parts = some parts →
      analyzeRespond ms (Except.ok resp) =
        Except.ok ⟨String.intercalate "\n" (parts.map fun p => p.text.getD ""),
          (sortMatchesByTimestamp ms).map toCitation⟩) ∧
    (∀ (ms : List VMatch) (e : String),
      analyzeRespond ms (Except.error e) = Except.error e) := by
  refine ⟨?_, ?_, ?_, fun ms e => rfl⟩
  · intro ms resp h1 h2
    simp only [analyzeRespond, extractAnswer, h1, h2]
  · intro ms resp t h1
    simp only [analyzeRespond, extractAnswer, h1]
  · intro ms resp parts h1 h2
    simp only [analyzeRespond, extractAnswer, h1, h2]

/-- C1 counterexample: an `ingest` call with an empty frames list and
`skipEnsure` unset issues the provisioning network call before returning
the validation rejection, so the rejection does not happen "before any
network call". -/
theorem claim1_counterexample :
    (ingestBranch false true true []).response =
        RouteStatus.badRequest "No frames provided for ingestion." ∧
      (ingestBranch false true true []).calls ≠ [] := by decide

/-- C1 (amended): `ingest` with zero frames and `query`/`analyze` with an
empty question are rejected with a validation error before any embedding
or store call; the provisioning readiness check, however, runs before the
validation whenever `skipEnsure` is not set, and is then the only network
call preceding the rejection; with `skipEnsure` set no network call
precedes it. -/
theorem claim1_validation_order (skipEnsure provisionOk embedOk genOk : Bool)
    (frames : List Frame) (question : String)
    (hps : skipEnsure = true ∨ provisionOk = true) :
    (frames = [] →
      (ingestBranch skipEnsure provisionOk embedOk frames).response =
          RouteStatus.badRequest "No frames provided for ingestion." ∧
        (ingestBranch skipEnsure provisionOk embedOk frames).calls =
          (if skipEnsure then [] else [NetCall.provision])) ∧
    (question = "" →
      (queryBranch skipEnsure provisionOk embedOk question).response =
          RouteStatus.badRequest "Question is required for query." ∧
        (queryBranch skipEnsure provisionOk embedOk question).calls =
          (if skipEnsure then [] else [NetCall.provision])) ∧
    (question = "" →
      (analyzeBranch skipEnsure provisionOk embedOk genOk question).response =
          RouteStatus.badRequest "Question is required for analyze." ∧
        (analyzeBranch skipEnsure provisionOk embedOk genOk question).calls =
          (if skipEnsure then [] else [NetCall.provision])) := by
  rcases hps with hs | hp
  · subst hs
    refine ⟨?_, ?_, ?_⟩ <;>
      (intro h; subst h; simp [ingestBranch, queryBranch, analyzeBranch])
  · subst hp
    cases skipEnsure <;>
      (refine ⟨?_, ?_, ?_⟩ <;>
        (intro h; subst h; simp [ingestBranch, queryBranch, analyzeBranch]))

/-- Witness for C1's amended theorem at a concrete input: empty frames,
provisioning succeeding, `skipEnsure` unset — the response is the
validation rejection and the only preceding network call is the
provisioning check. -/
theorem claim1_validation_order_witness :
    (ingestBranch false true true []).response =
        RouteStatus.badRequest "No frames provided for ingestion." ∧
      (ingestBranch false true true []).calls = [NetCall.provision] := by
  have h := (claim1_validation_order false true true true [] "" (Or.inr rfl)).1 rfl
  simpa using h

/-- C8 counterexample: `videoId = 0` is present, yet the namespace is the
default `"frames"`, not `"video-"` followed by the sanitized id. -/
theorem claim8_counterexample :
    getNamespace (some (JsId.num 0)) = "frames" ∧
      getNamespace (some (JsId.num 0)) ≠
        "video-" ++ sanitizeIndexName (some (JsId.num 0)) := by decide

/-- C8 (amended): for every truthy videoId (a non-zero number or non-empty
string) the namespace is `"video-"` followed by the sanitized videoId;
when videoId is absent — or present but falsy — the namespace is
`"frames"`; videoId 42 yields `"video-42"`. -/
theorem claim8_namespace_derivation :
    (∀ v : JsId, v.falsy = false →
      getNamespace (some v) = "video-" ++ sanitizeIndexName (some v)) ∧
    getNamespace none = "frames" ∧
    getNamespace (some (JsId.num 42)) = "video-42" := by
  refine ⟨?_, by decide, by decide⟩
  intro v hv
  simp [getNamespace, hv]

/-- Witness for C8's amended theorem at the concrete truthy id 42: the
namespace is "video-" followed by the sanitized id. -/
theorem claim8_namespace_derivation_witness :
    getNamespace (some (JsId.num 42)) =
      "video-" ++ sanitizeIndexName (some (JsId.num 42)) :=
  claim8_namespace_derivation.1 (JsId.num 42) (by decide)

/-- C9: sanitization lowercases, replaces runs of characters outside
`[a-z0-9-]` with single dashes, collapses consecutive dashes, trims
leading and trailing dashes, falls back to the default name when empty,
and caps at 45 characters: the worked example maps `"My Video!!.mp4"` to
`"my-video-mp4"`; trimming and fallback are exercised on concrete inputs;
and every output has at most 45 characters, is non-empty, consists only
of `[a-z0-9-]` characters, and never contains two adjacent dashes. -/
theorem claim9_sanitize_index_name :
    sanitizeIndexName (some (JsId.str "My Video!!.mp4")) = "my-video-mp4" ∧
    sanitizeIndexName (some (JsId.str "--Weird   Name!!--")) = "weird-name" ∧
    sanitizeIndexName (some (JsId.str "!!!")) = DEFAULT_INDEX_NAME ∧
    sanitizeIndexName (some (JsId.str (String.mk (List.replicate 60 'a')))) =
      String.mk (List.replicate 45 'a') ∧
    (∀ raw : Option JsId, (sanitizeIndexName raw).toList.length ≤ 45) ∧
    (∀ raw : Option JsId, sanitizeIndexName raw ≠ "") ∧
    (∀ raw : Option JsId, ∀ c ∈ (sanitizeIndexName raw).toList,
      isAllowedChar c = true) ∧
    (∀ raw : Option JsId,
      List.Chain' NoDoubleDash (sanitizeIndexName raw).toList) :=
  ⟨by decide, by decide, by decide, by decide,
    sanitizeIndexName_length, sanitizeIndexName_ne_empty,
    sanitizeIndexName_allowed, sanitizeIndexName_chain⟩

/-- C10: a present but falsy `videoId` — the number 0 or the empty string —
yields the default namespace `"frames"`, the same partition used when
`videoId` is absent, rather than `"video-0"` or similar. -/
theorem claim10_falsy_video_id :
    getNamespace (some (JsId.num 0)) = "frames" ∧
    getNamespace (some (JsId.str "")) = "frames" ∧
    getNamespace none = "frames" ∧
    getNamespace (some (JsId.num 0)) ≠ "video-0" := by decide

end VideoRAG
